import Mathlib

/-!
Shallow embedding of the UCT engine façade of pachi (src/uct/uct.c) and
theorems checking the natural-language specification against it.

The file models, from the source, the per-game board state handling
(`prepare_move`, `uct_notify_play`, `uct_genmove`, `uct_chat`,
`uct_printhook_ownermap`, `uct_pass_is_safe`, `uct_done_board_state`),
the configuration parsing of `uct_state_init`, and the join/halt logic
of `uct_threaded_playouts`.  Code of the repository living outside
src/uct/uct.c (tree.c, walk.c, playout.c, board/stone headers) is
modelled from the spec where a claim needs it; each such definition
carries a doc comment starting with `Modelled from the spec:`.
-/

/-- Modelled from the spec: stone colors (stone.h is not in src).  §3: one of
Black, White, None; numeric codes 0/1/2 as used by the `color & dynkomi_mask`
bit test in uct.c. -/
inductive Stone : Type where
  | none : Stone
  | black : Stone
  | white : Stone
deriving DecidableEq, Repr

/-- Modelled from the spec: `stone_other` (stone.h not in src); §3:
`other(Black)=White`, `other(White)=Black`. -/
def stone_other : Stone → Stone
  | Stone.black => Stone.white
  | Stone.white => Stone.black
  | Stone.none => Stone.none

/-- Modelled from the spec: numeric code of a stone color (S_NONE=0, S_BLACK=1,
S_WHITE=2), needed for the bitmask test `color & u->dynkomi_mask` in uct.c. -/
def stoneCode : Stone → Nat
  | Stone.none => 0
  | Stone.black => 1
  | Stone.white => 2

/-- Modelled from the spec: a move coordinate (move.h not in src). §3: a
coordinate in `[0, S*S)` plus the two sentinels PASS and RESIGN. -/
inductive Coord : Type where
  | pt : Nat → Coord
  | pass : Coord
  | resign : Coord
deriving DecidableEq, Repr

/-- Modelled from the spec: `is_pass` (move.h not in src). -/
def is_pass : Coord → Bool
  | Coord.pass => true
  | _ => false

/-- Modelled from the spec: `is_resign` (move.h not in src). -/
def is_resign : Coord → Bool
  | Coord.resign => true
  | _ => false

/-- Modelled from the spec: a move (move.h not in src): coordinate plus the
color that plays it. -/
structure Move where
  coord : Coord
  color : Stone

/-- Modelled from the spec: a search-tree node (uct/tree.h not in src).  §3:
`move` leading here, visit count, node value (kept as an abstract rational,
read through the external `tree_node_get_value`), and the sibling list of
children.  Fields not consulted by uct.c itself (AMAF, priors, hints) are
omitted. -/
inductive TNode : Type where
  | mk : Coord → Nat → ℚ → List TNode → TNode

/-- The move that leads to this node. -/
def TNode.coord : TNode → Coord
  | TNode.mk c _ _ _ => c

/-- The node's visit count (`n->u.playouts`). -/
def TNode.playouts : TNode → Nat
  | TNode.mk _ p _ _ => p

/-- The node's raw value (`n->u.value`). -/
def TNode.value : TNode → ℚ
  | TNode.mk _ _ v _ => v

/-- The node's children (sibling list). -/
def TNode.children : TNode → List TNode
  | TNode.mk _ _ _ ch => ch

/-- Replace the node's move coordinate (uct_genmove mutates `best->coord`
before promoting). -/
def TNode.setCoord : TNode → Coord → TNode
  | TNode.mk _ p v ch, c => TNode.mk c p v ch

/-- Modelled from the spec: the search tree (uct/tree.h not in src). §3: the
current root, `root_color` (the color that just played to reach the root
position) and the dynamic-komi adjustment `extra_komi`. -/
structure UTree where
  root : TNode
  root_color : Stone
  extra_komi : ℚ

/-- Modelled from the spec: `tree_promote_at` (tree.c not in src).  §4.1:
searches root's children for one whose move equals the given coordinate; if
found, re-roots the tree at it (the new `root_color` is the mover, i.e. the
opposite of the old one per the §3 lifecycle), otherwise fails. -/
def tree_promote_at (t : UTree) (c : Coord) : Option UTree :=
  match t.root.children.find? (fun n => decide (TNode.coord n = c)) with
  | Option.none => Option.none
  | Option.some n => Option.some { t with root := n, root_color := stone_other t.root_color }

/-- Modelled from the spec: `tree_promote_node` (tree.c not in src). §4.1:
like `promote_at` but by node identity. -/
def tree_promote_node (t : UTree) (n : TNode) : UTree :=
  { t with root := n, root_color := stone_other t.root_color }

/-- Modelled from the spec: the ownership map (uct/internal.h not in src).
§3: per-point counters for Black/White/Dame outcomes plus the number of
playouts recorded into the map. -/
structure OwnerMap where
  counts : Nat → Nat × Nat × Nat
  playouts : Nat

/-- Modelled from the spec: the per-game board state `struct uct_board`
(uct/internal.h not in src): the game tree and the ownership map. -/
structure UctBoard where
  t : UTree
  ownermap : OwnerMap

/-- Modelled from the spec: the slice of `struct board` (board.h not in src)
consulted by uct.c: the engine-private state pointer `es`, the move counter,
the last move's coordinate and the superko-violation flag. -/
structure Board where
  es : Option UctBoard
  moves : Nat
  last_move : Coord
  superko_violation : Bool

/-- How many games to consider at minimum before judging groups
(uct.c line 38). -/
def GJ_MINGAMES : Nat := 500

/-- How big a proportion of ownermap counts must be of one color to consider
the point sure (uct.c line 36). -/
def GJ_THRES : ℚ := 4 / 5

/-- Default number of games per genmove (uct.c line 31). -/
def MC_GAMES : Int := 80000

/-- Modelled from the spec: MAX_GAMELEN (board.h not in src).  Its exact
value is immaterial to every claim; it only seeds the `gamelen` default. -/
def MAX_GAMELEN : Int := 600

/-- A tree policy (policy_ucb1_init / policy_ucb1amaf_init are external
constructors declared at the top of uct.c); the optional string is the
`policyarg` passed to the constructor. -/
inductive TreePolicy : Type where
  | ucb1 : Option String → TreePolicy
  | ucb1amaf : Option String → TreePolicy
deriving DecidableEq, Repr

/-- Kind of rollout policy (moggy.c / light.c are external). -/
inductive PlayoutKind : Type where
  | moggy : PlayoutKind
  | light : PlayoutKind
deriving DecidableEq, Repr

/-- A rollout policy handle, with the `playoutarg` it was constructed from
and the `debug_level` field uct_state_init copies into it at the end. -/
structure PlayoutPolicy where
  kind : PlayoutKind
  args : Option String
  debug_level : Int
deriving DecidableEq, Repr

/-- Thread model (TM_NONE / TM_ROOT, uct/internal.h). -/
inductive ThreadModel : Type where
  | tm_none : ThreadModel
  | tm_root : ThreadModel
deriving DecidableEq, Repr

/-- Modelled from the spec: `struct uct` (uct/internal.h not in src), with the
fields uct.c reads or writes.  Numeric fields keep C `int` as `Int` (atoi
results), floats as `ℚ`. -/
structure Uct where
  debug_level : Int
  games : Int
  gamelen : Int
  expand_p : Int
  dumpthres : Int
  playout_amaf : Bool
  playout_amaf_nakade : Bool
  playout_amaf_cutoff : Int
  amaf_prior : Int
  dynkomi : Int
  dynkomi_mask : Nat
  thread_model : ThreadModel
  val_scale : ℚ
  val_points : Int
  val_extra : Bool
  root_heuristic : Int
  pass_all_alive : Bool
  random_policy_chance : Int
  banner : Option String
  policy : Option TreePolicy
  random_policy : Option TreePolicy
  playout : Option PlayoutPolicy
  prior : Option (Option String)
  threads : Int
  force_seed : Int
  no_book : Bool
  resign_ratio : ℚ
  loss_threshold : ℚ

/-- The state of `struct uct` right after the calloc and the explicit field
initializations at the top of uct_state_init (uct.c lines 416-433); all other
fields are zero from calloc. -/
def uctDefaults : Uct :=
  { debug_level := 1
    games := MC_GAMES
    gamelen := MAX_GAMELEN
    expand_p := 2
    dumpthres := 1000
    playout_amaf := true
    playout_amaf_nakade := false
    playout_amaf_cutoff := 0
    amaf_prior := 0
    dynkomi := 0
    dynkomi_mask := 1
    thread_model := ThreadModel.tm_root
    val_scale := 1 / 50
    val_points := 20
    val_extra := false
    root_heuristic := 0
    pass_all_alive := false
    random_policy_chance := 0
    banner := Option.none
    policy := Option.none
    random_policy := Option.none
    playout := Option.none
    prior := Option.none
    threads := 0
    force_seed := 0
    no_book := false
    resign_ratio := 0
    loss_threshold := 0 }

/-- Split a char list at the first occurrence of `sep`: the part before, and
(when `sep` occurs) the part after it.  This is the list-level counterpart of
the `strcspn`/`strchr`-based splitting in uct_state_init (commas, `=`, `:`). -/
def splitOnCh (sep : Char) : List Char → List Char × Option (List Char)
  | [] => ([], Option.none)
  | c :: cs =>
    if c = sep then ([], Option.some cs)
    else
      let p := splitOnCh sep cs
      (c :: p.1, p.2)

/-- Character-class test used by C `atoi`/`atof` for leading whitespace. -/
def isSpaceC (c : Char) : Bool :=
  c = ' ' || c = '\t' || c = '\n' || c = Char.ofNat 11 || c = Char.ofNat 12 || c = '\x0d'

/-- Accumulate a decimal digit run, C-style: stop at the first non-digit. -/
def digitsAcc : List Char → Nat → Nat × List Char
  | c :: cs, acc =>
    if c.isDigit then digitsAcc cs (acc * 10 + (c.toNat - 48)) else (acc, c :: cs)
  | [], acc => (acc, [])

/-- C `atoi`: skip whitespace, optional sign, leading digit run. -/
def atoi (s : List Char) : Int :=
  let s1 := s.dropWhile isSpaceC
  match s1 with
  | '-' :: t => -((digitsAcc t 0).1 : Int)
  | '+' :: t => ((digitsAcc t 0).1 : Int)
  | t => ((digitsAcc t 0).1 : Int)

/-- Fractional digit run for `atof`: value and remaining input. -/
def fracAcc : List Char → ℚ → ℚ → ℚ × List Char
  | c :: cs, scale, acc =>
    if c.isDigit then fracAcc cs (scale / 10) (acc + scale / 10 * ((c.toNat : ℚ) - 48))
    else (acc, c :: cs)
  | [], _, acc => (acc, [])

/-- Exponent part of `atof` (`e`/`E` already consumed). -/
def applyExp (m : ℚ) (t : List Char) : ℚ :=
  match t with
  | '-' :: t2 => m / (10 : ℚ) ^ (digitsAcc t2 0).1
  | '+' :: t2 => m * (10 : ℚ) ^ (digitsAcc t2 0).1
  | t2 => m * (10 : ℚ) ^ (digitsAcc t2 0).1

/-- C `atof` over rationals: whitespace, sign, integer part, optional
fraction, optional decimal exponent. -/
def atofQ (s : List Char) : ℚ :=
  let s1 := s.dropWhile isSpaceC
  let sgn : Bool × List Char :=
    match s1 with
    | '-' :: t => (true, t)
    | '+' :: t => (false, t)
    | t => (false, t)
  let ip := digitsAcc sgn.2 0
  let fp : ℚ × List Char :=
    match ip.2 with
    | '.' :: t => fracAcc t 1 0
    | t => ((0 : ℚ), t)
  let mant : ℚ := (ip.1 : ℚ) + fp.1
  let mant2 : ℚ :=
    match fp.2 with
    | 'e' :: t => applyExp mant t
    | 'E' :: t => applyExp mant t
    | _ => mant
  if sgn.1 then -mant2 else mant2

/-- ASCII-lowered copy of a character list, for `strcasecmp` comparisons. -/
def lowerChars (s : List Char) : List Char := s.map Char.toLower

/-- Case-insensitive string equality (`!strcasecmp`). -/
def ceq (a b : String) : Bool := lowerChars a.data == lowerChars b.data

/-- The option keys recognized by uct_state_init's if/else cascade, plus
`unknown` for the final `else` (fatal) branch. -/
inductive KeyClass : Type where
  | debug | games | gamelen | expand_p | dumpthres
  | playout_amaf | playout_amaf_nakade | playout_amaf_cutoff
  | policy | random_policy | playout | prior | amaf_prior
  | threads | thread_model | force_seed | no_book
  | dynkomi | dynkomi_mask | val_scale | val_points | val_extra
  | root_heuristic | pass_all_alive | random_policy_chance | banner
  | unknown
deriving DecidableEq, Repr

/-- Classify an option name by the (case-insensitive) key comparisons of
uct_state_init.  The keys are pairwise distinct, so the cascade order is
immaterial. -/
def classifyKey (name : String) : KeyClass :=
  if ceq name "debug" then KeyClass.debug
  else if ceq name "games" then KeyClass.games
  else if ceq name "gamelen" then KeyClass.gamelen
  else if ceq name "expand_p" then KeyClass.expand_p
  else if ceq name "dumpthres" then KeyClass.dumpthres
  else if ceq name "playout_amaf" then KeyClass.playout_amaf
  else if ceq name "playout_amaf_nakade" then KeyClass.playout_amaf_nakade
  else if ceq name "playout_amaf_cutoff" then KeyClass.playout_amaf_cutoff
  else if ceq name "policy" then KeyClass.policy
  else if ceq name "random_policy" then KeyClass.random_policy
  else if ceq name "playout" then KeyClass.playout
  else if ceq name "prior" then KeyClass.prior
  else if ceq name "amaf_prior" then KeyClass.amaf_prior
  else if ceq name "threads" then KeyClass.threads
  else if ceq name "thread_model" then KeyClass.thread_model
  else if ceq name "force_seed" then KeyClass.force_seed
  else if ceq name "no_book" then KeyClass.no_book
  else if ceq name "dynkomi" then KeyClass.dynkomi
  else if ceq name "dynkomi_mask" then KeyClass.dynkomi_mask
  else if ceq name "val_scale" then KeyClass.val_scale
  else if ceq name "val_points" then KeyClass.val_points
  else if ceq name "val_extra" then KeyClass.val_extra
  else if ceq name "root_heuristic" then KeyClass.root_heuristic
  else if ceq name "pass_all_alive" then KeyClass.pass_all_alive
  else if ceq name "random_policy_chance" then KeyClass.random_policy_chance
  else if ceq name "banner" then KeyClass.banner
  else KeyClass.unknown

/-- Which keys guard their branch with `&& optval`: without a value they fall
through the whole cascade into the final fatal `else`. -/
def requiresVal : KeyClass → Bool
  | KeyClass.games | KeyClass.gamelen | KeyClass.expand_p | KeyClass.dumpthres
  | KeyClass.playout_amaf_cutoff | KeyClass.policy | KeyClass.random_policy
  | KeyClass.playout | KeyClass.prior | KeyClass.amaf_prior | KeyClass.threads
  | KeyClass.thread_model | KeyClass.force_seed | KeyClass.dynkomi_mask
  | KeyClass.val_scale | KeyClass.val_points | KeyClass.root_heuristic
  | KeyClass.random_policy_chance | KeyClass.banner => true
  | _ => false

/-- Outcome of processing one `key[=value]` option. -/
inductive StepResult : Type where
  | cont : Uct → StepResult
  | stopBanner : String → StepResult
  | fatal : String → StepResult

/-- The fatal diagnostic of uct_state_init's final `else` branch. -/
def invalidArgMsg (name : List Char) : String :=
  "uct: Invalid engine argument " ++ String.mk name ++ " or missing value"

/-- Process one option token of the engine argument string: uct.c lines
442-583.  The token is split at the first `=` into name and optional value;
the branch taken is the source's if/else cascade (represented by
`classifyKey` since the keys are pairwise distinct). -/
def stepOption (u : Uct) (tok : List Char) : StepResult :=
  match classifyKey (String.mk (splitOnCh '=' tok).1), (splitOnCh '=' tok).2 with
  | KeyClass.debug, Option.some v => StepResult.cont { u with debug_level := atoi v }
  | KeyClass.debug, Option.none => StepResult.cont { u with debug_level := u.debug_level + 1 }
  | KeyClass.games, Option.some v => StepResult.cont { u with games := atoi v }
  | KeyClass.gamelen, Option.some v => StepResult.cont { u with gamelen := atoi v }
  | KeyClass.expand_p, Option.some v => StepResult.cont { u with expand_p := atoi v }
  | KeyClass.dumpthres, Option.some v => StepResult.cont { u with dumpthres := atoi v }
  | KeyClass.playout_amaf, Option.some v =>
    StepResult.cont { u with playout_amaf := if v.head? = Option.some '0' then false else true }
  | KeyClass.playout_amaf, Option.none => StepResult.cont { u with playout_amaf := true }
  | KeyClass.playout_amaf_nakade, Option.some v =>
    StepResult.cont { u with playout_amaf_nakade := if v.head? = Option.some '0' then false else true }
  | KeyClass.playout_amaf_nakade, Option.none =>
    StepResult.cont { u with playout_amaf_nakade := true }
  | KeyClass.playout_amaf_cutoff, Option.some v =>
    StepResult.cont { u with playout_amaf_cutoff := atoi v }
  | KeyClass.policy, Option.some v =>
    if ceq (String.mk (splitOnCh ':' v).1) "ucb1" then
      StepResult.cont { u with policy := Option.some (TreePolicy.ucb1 (Option.map String.mk (splitOnCh ':' v).2)) }
    else if ceq (String.mk (splitOnCh ':' v).1) "ucb1amaf" then
      StepResult.cont { u with policy := Option.some (TreePolicy.ucb1amaf (Option.map String.mk (splitOnCh ':' v).2)) }
    else StepResult.fatal ("UCT: Invalid tree policy " ++ String.mk (splitOnCh ':' v).1)
  | KeyClass.random_policy, Option.some v =>
    if ceq (String.mk (splitOnCh ':' v).1) "ucb1" then
      StepResult.cont { u with random_policy := Option.some (TreePolicy.ucb1 (Option.map String.mk (splitOnCh ':' v).2)) }
    else if ceq (String.mk (splitOnCh ':' v).1) "ucb1amaf" then
      StepResult.cont { u with random_policy := Option.some (TreePolicy.ucb1amaf (Option.map String.mk (splitOnCh ':' v).2)) }
    else StepResult.fatal ("UCT: Invalid tree policy " ++ String.mk (splitOnCh ':' v).1)
  | KeyClass.playout, Option.some v =>
    if ceq (String.mk (splitOnCh ':' v).1) "moggy" then
      StepResult.cont { u with playout := Option.some { kind := PlayoutKind.moggy, args := Option.map String.mk (splitOnCh ':' v).2, debug_level := 0 } }
    else if ceq (String.mk (splitOnCh ':' v).1) "light" then
      StepResult.cont { u with playout := Option.some { kind := PlayoutKind.light, args := Option.map String.mk (splitOnCh ':' v).2, debug_level := 0 } }
    else StepResult.fatal ("UCT: Invalid playout policy " ++ String.mk (splitOnCh ':' v).1)
  | KeyClass.prior, Option.some v =>
    StepResult.cont { u with prior := Option.some (Option.some (String.mk v)) }
  | KeyClass.amaf_prior, Option.some v => StepResult.cont { u with amaf_prior := atoi v }
  | KeyClass.threads, Option.some v => StepResult.cont { u with threads := atoi v }
  | KeyClass.thread_model, Option.some v =>
    if ceq (String.mk v) "none" then StepResult.cont { u with thread_model := ThreadModel.tm_none }
    else if ceq (String.mk v) "root" then StepResult.cont { u with thread_model := ThreadModel.tm_root }
    else StepResult.fatal ("UCT: Invalid thread model " ++ String.mk v)
  | KeyClass.force_seed, Option.some v => StepResult.cont { u with force_seed := atoi v }
  | KeyClass.no_book, _ => StepResult.cont { u with no_book := true }
  | KeyClass.dynkomi, Option.some v => StepResult.cont { u with dynkomi := atoi v }
  | KeyClass.dynkomi, Option.none => StepResult.cont { u with dynkomi := 150 }
  | KeyClass.dynkomi_mask, Option.some v =>
    StepResult.cont { u with dynkomi_mask := (atoi v).toNat }
  | KeyClass.val_scale, Option.some v => StepResult.cont { u with val_scale := atofQ v }
  | KeyClass.val_points, Option.some v => StepResult.cont { u with val_points := atoi v * 2 }
  | KeyClass.val_extra, Option.some v =>
    StepResult.cont { u with val_extra := decide (atoi v ≠ 0) }
  | KeyClass.val_extra, Option.none => StepResult.cont { u with val_extra := true }
  | KeyClass.root_heuristic, Option.some v => StepResult.cont { u with root_heuristic := atoi v }
  | KeyClass.pass_all_alive, Option.some v =>
    StepResult.cont { u with pass_all_alive := decide (atoi v ≠ 0) }
  | KeyClass.pass_all_alive, Option.none => StepResult.cont { u with pass_all_alive := true }
  | KeyClass.random_policy_chance, Option.some v =>
    StepResult.cont { u with random_policy_chance := atoi v }
  | KeyClass.banner, Option.some v => StepResult.stopBanner (String.mk v)
  | _, _ => StepResult.fatal (invalidArgMsg (splitOnCh '=' tok).1)

/-- The option-scanning loop of uct_state_init (uct.c lines 437-584), fuelled
so that it is structurally recursive; `parseChars` supplies enough fuel for
the fuel never to run out (each step strictly consumes input).  Options are
comma-separated; `banner` consumes the whole remaining input (the consumed
comma is restored exactly when more input follows, uct.c line 577). -/
def parseCharsAux : Nat → Uct → List Char → Except String Uct
  | _, u, [] => Except.ok u
  | 0, u, _ :: _ => Except.ok u
  | fuel + 1, u, c :: cs =>
    let p := splitOnCh ',' (c :: cs)
    match stepOption u p.1 with
    | StepResult.fatal m => Except.error m
    | StepResult.stopBanner bv =>
      Except.ok { u with banner := Option.some (match p.2 with
        | Option.some r => if r = [] then bv else bv ++ "," ++ String.mk r
        | Option.none => bv) }
    | StepResult.cont u2 =>
      match p.2 with
      | Option.none => Except.ok u2
      | Option.some rest => parseCharsAux fuel u2 rest

/-- The option-scanning loop of uct_state_init, at its natural type. -/
def parseChars (u : Uct) (cs : List Char) : Except String Uct :=
  parseCharsAux cs.length u cs

/-- The tail of uct_state_init after the option loop (uct.c lines 587-606):
the post-parse defaults and checks, in source order, applied to the loop's
outcome.  Process termination by `exit(1)` is modelled as `Except.error`
carrying the diagnostic. -/
def uct_state_init_parsed : Except String Uct → Except String Uct
  | Except.error m => Except.error m
  | Except.ok u0 =>
    let u1 : Uct := { u0 with resign_ratio := 1 / 5, loss_threshold := 17 / 20 }
    let u2 : Uct := if u1.policy = Option.none then
        { u1 with policy := Option.some (TreePolicy.ucb1amaf Option.none) } else u1
    let u3 : Uct := if u2.threads = 0 then { u2 with thread_model := ThreadModel.tm_none } else u2
    if Bool.xor (decide (u3.random_policy_chance ≠ 0)) (decide (u3.random_policy ≠ Option.none)) then
      Except.error "uct: Only one of random_policy and random_policy_chance is set"
    else
      let u4 : Uct := if u3.prior = Option.none then { u3 with prior := Option.some Option.none } else u3
      let u5 : Uct := if u4.playout = Option.none then
          { u4 with playout := Option.some { kind := PlayoutKind.moggy, args := Option.none, debug_level := 0 } }
        else u4
      Except.ok { u5 with
        playout := Option.map (fun p => { p with debug_level := u5.debug_level }) u5.playout }

/-- uct_state_init (uct.c lines 413-607): parse the engine argument (NULL
modelled as `none`), then apply the post-parse defaults and checks. -/
def uct_state_init (arg : Option String) : Except String Uct :=
  uct_state_init_parsed
    (match arg with
     | Option.some a => parseChars uctDefaults a.data
     | Option.none => Except.ok uctDefaults)

/-- Errors that terminate the process inside the engine calls: the explicit
`exit(1)` after the non-alternating-play diagnostic (uct.c lines 50-54), and
C `assert` failures. -/
inductive EngineErr : Type where
  | fatalNonAlternating : EngineErr
  | assertFail : EngineErr
deriving DecidableEq, Repr

/-- The per-game state built by the tail of prepare_move (uct.c lines 72-76):
the tree after the optional dynamic-komi update, and the ownership map reset
to zero.  `ek` stands for the external `uct_get_extra_komi(u, b)`. -/
def prepFinishUb (u : Uct) (ek : ℚ) (moves : Nat) (color : Stone) (t : UTree) : UctBoard :=
  { t := if u.dynkomi ≠ 0 ∧ (moves : Int) < u.dynkomi ∧ stoneCode color &&& u.dynkomi_mask ≠ 0
      then { t with extra_komi := ek } else t
    ownermap := { counts := fun _ => (0, 0, 0), playouts := 0 } }

/-- prepare_move (uct.c lines 41-77).  With existing state: assert
`b->moves != 0`, then the fatal non-alternating-play check against
`other(root_color)`.  Without state: build a fresh tree via the external
`tree_init` (and `tree_load` when the opening book applies, asserting the
color is Black in that case).  Both paths end by applying dynamic komi when
configured and zeroing the ownership map.  Seeding of the PRNG and debug
output have no modelled effect. -/
def prepare_move (u : Uct) (tree_init : Stone → UTree) (tree_load : UTree → UTree)
    (ek : ℚ) (b : Board) (color : Stone) : Except EngineErr Board :=
  match b.es with
  | Option.some ub =>
    if b.moves = 0 then Except.error EngineErr.assertFail
    else if color ≠ stone_other ub.t.root_color then Except.error EngineErr.fatalNonAlternating
    else Except.ok { b with es := Option.some (prepFinishUb u ek b.moves color ub.t) }
  | Option.none =>
    let t0 := tree_init color
    if ¬u.no_book ∧ b.moves = 0 then
      if color ≠ Stone.black then Except.error EngineErr.assertFail
      else Except.ok { b with es := Option.some (prepFinishUb u ek b.moves color (tree_load t0)) }
    else Except.ok { b with es := Option.some (prepFinishUb u ek b.moves color t0) }

/-- uct_done_board_state (uct.c lines 218-228): free the tree and the
ownership map and clear `b->es`.  The asserts on entry hold at every call
site modelled here (the state is present). -/
def uct_done_board_state (b : Board) : Board :=
  { b with es := Option.none }

/-- uct_notify_play (uct.c lines 130-156): create state if absent (via
prepare_move); on RESIGN destroy the state; otherwise promote the played
move's node to the root, destroying the state when promotion fails
(warning only, not fatal). -/
def uct_notify_play (u : Uct) (tree_init : Stone → UTree) (tree_load : UTree → UTree)
    (ek : ℚ) (b : Board) (m : Move) : Except EngineErr Board :=
  match (match b.es with
         | Option.none => prepare_move u tree_init tree_load ek b m.color
         | Option.some _ => Except.ok b) with
  | Except.error e => Except.error e
  | Except.ok b1 =>
    match b1.es with
    | Option.none => Except.error EngineErr.assertFail
    | Option.some ub =>
      if is_resign m.coord then Except.ok (uct_done_board_state b1)
      else
        match tree_promote_at ub.t m.coord with
        | Option.none => Except.ok (uct_done_board_state b1)
        | Option.some t2 => Except.ok { b1 with es := Option.some { ub with t := t2 } }

/-- uct_pass_is_safe (uct.c lines 101-113): below GJ_MINGAMES recorded
ownership playouts the answer is `false` at once; otherwise the dead-group
list is built (unless `pass_all_alive`) and the external rules-level
`pass_is_safe` decides.  `dg` stands for the `dead_group_list` computation
(uct.c lines 79-99, via the external group judge) and `rps` for the external
`pass_is_safe(b, color, &mq)`. -/
def uct_pass_is_safe (u : Uct) (dg : UctBoard → List Nat) (rps : List Nat → Bool)
    (ub : UctBoard) : Bool :=
  if ub.ownermap.playouts < GJ_MINGAMES then false
  else
    let mq : List Nat := if u.pass_all_alive then [] else dg ub
    rps mq

/-- Modelled from the spec: the `while (ub->ownermap.playouts < GJ_MINGAMES)
uct_playout(...)` loop of uct_genmove (uct.c lines 362-363).  `uct_playout`
lives in uct/walk.c, which is not in src; per spec §4.3 step 6 each completed
playout updates the tree, adds the terminal ownership of every point to the
map and increments `owner_map.playouts` by one.  The tree and counts updates
are abstracted by `ts` and `oc`; the loop therefore runs exactly
`GJ_MINGAMES - playouts` more playouts. -/
def runUntilMingames (ts : UTree → UTree) (oc : OwnerMap → Nat → Nat × Nat × Nat)
    (ub : UctBoard) : UctBoard :=
  Nat.iterate
    (fun s => { t := ts s.t
                ownermap := { counts := oc s.ownermap, playouts := s.ownermap.playouts + 1 } })
    (GJ_MINGAMES - ub.ownermap.playouts) ub

/-- uct_genmove (uct.c lines 314-373).  The superko warning clears the flag;
prepare_move seeds the state; the external search (`uct_threaded_playouts`,
whose tree/ownermap effect is `runPlayouts`) runs; the external policy
`choose` picks the best node, whose value is read through the external
`tree_node_get_value` (`gv`).  Then: no best node → destroy state, PASS;
value below `resign_ratio` on a non-pass move → destroy state, RESIGN;
opponent pass with more than one move on the board → top up the ownership map
to GJ_MINGAMES playouts and override with PASS when `uct_pass_is_safe`; the
chosen node (with its possibly overridden coordinate) is promoted to the new
root and its coordinate returned. -/
def uct_genmove (u : Uct) (tree_init : Stone → UTree) (tree_load : UTree → UTree) (ek : ℚ)
    (runPlayouts : UctBoard → UctBoard) (choose : UTree → Option TNode) (gv : ℚ → ℚ)
    (ts : UTree → UTree) (oc : OwnerMap → Nat → Nat × Nat × Nat)
    (dg : UctBoard → List Nat) (rps : List Nat → Bool)
    (b : Board) (color : Stone) : Except EngineErr (Board × Coord) :=
  let b0 := { b with superko_violation := false }
  match prepare_move u tree_init tree_load ek b0 color with
  | Except.error e => Except.error e
  | Except.ok b1 =>
    match b1.es with
    | Option.none => Except.error EngineErr.assertFail
    | Option.some ub0 =>
      let ub1 := runPlayouts ub0
      match choose ub1.t with
      | Option.none => Except.ok ({ b1 with es := Option.none }, Coord.pass)
      | Option.some best =>
        if gv (TNode.value best) < u.resign_ratio ∧ TNode.coord best ≠ Coord.pass then
          Except.ok ({ b1 with es := Option.none }, Coord.resign)
        else
          let pr : UctBoard × Coord :=
            if 1 < b1.moves ∧ is_pass b1.last_move then
              let ub2 := runUntilMingames ts oc ub1
              if uct_pass_is_safe u dg rps ub2 then (ub2, Coord.pass)
              else (ub2, TNode.coord best)
            else (ub1, TNode.coord best)
          let ub3 : UctBoard :=
            { t := tree_promote_node pr.1.t (TNode.setCoord best pr.2)
              ownermap := pr.1.ownermap }
          Except.ok ({ b1 with es := Option.some ub3 }, pr.2)

/-- What uct_chat returns: the winrate report (its printf arguments, with the
extra-komi clause present or absent), a fixed literal, or NULL. -/
inductive ChatResult : Type where
  | winrateReply : Nat → Int → Stone → Coord → ℚ → Option ℚ → ChatResult
  | fixedStr : String → ChatResult
  | null : ChatResult

/-- C conversion of the real-valued `extra_komi` to `int`: truncation toward
zero (`Int.tdiv` is C `/` on integers; `num tdiv den` truncates a rational
toward zero exactly like a C float-to-int cast). -/
def truncQ (q : ℚ) : Int := Int.tdiv q.num (q.den : Int)

/-- stdlib `int abs(int)` — uct.c includes no math.h, so the `abs` at line
174 receives `extra_komi` converted to `int` and returns an `int`. -/
def cIntAbs (n : Int) : Int := if n < 0 then -n else n

/-- The command test of uct_chat (uct.c lines 165-166): skip leading blanks,
then `strncasecmp(cmd, "winrate", 7)`. -/
def winrateCmd (cmd : String) : Bool :=
  ceq (String.mk ((cmd.data.dropWhile (fun c => c = ' ' || c = '\n' || c = '\t')).take 7))
    "winrate"

/-- uct_chat (uct.c lines 158-182): on a `winrate` command report the root
node's playout count, the thread count, the root color, the root coordinate
and the root value scaled to a percentage (via the external
`tree_node_get_value`, `gv`), appending the extra komi only when
`abs(extra_komi) >= 0.5` — stdlib int `abs` of the int-truncated komi (no
math.h is included), so only when the komi's magnitude reaches 1; without
per-game state return the fixed string; other commands return NULL. -/
def uct_chat (u : Uct) (gv : ℚ → ℚ) (b : Board) (cmd : String) : ChatResult :=
  if winrateCmd cmd then
    match b.es with
    | Option.none => ChatResult.fixedStr "no game context (yet?)"
    | Option.some ub =>
      ChatResult.winrateReply (TNode.playouts ub.t.root) u.threads ub.t.root_color
        (TNode.coord ub.t.root) (gv (TNode.value ub.t.root) * 100)
        (if 1 / 2 ≤ (cIntAbs (truncQ ub.t.extra_komi) : ℚ) then Option.some ub.t.extra_komi
          else Option.none)
  else ChatResult.null

/-- Point classification outcomes of the ownership judge, in the order the
`":XO,"` tables of uct_printhook_ownermap index them. -/
inductive PointJudgement : Type where
  | dame | black | white | unclear
deriving DecidableEq, Repr

/-- Modelled from the spec: `playout_ownermap_judge_point` (playout.c not in
src); §4.4: a point is black/white/dame when the corresponding counter
reaches `thres` of the recorded playouts, unclear otherwise. -/
def playout_ownermap_judge_point (om : OwnerMap) (c : Nat) (thres : ℚ) : PointJudgement :=
  let k := om.counts c
  if thres * (om.playouts : ℚ) ≤ (k.1 : ℚ) then PointJudgement.black
  else if thres * (om.playouts : ℚ) ≤ (k.2.1 : ℚ) then PointJudgement.white
  else if thres * (om.playouts : ℚ) ≤ (k.2.2 : ℚ) then PointJudgement.dame
  else PointJudgement.unclear

/-- The `":XO,"` table (sure classification). -/
def chrTable : PointJudgement → Char
  | PointJudgement.dame => ':'
  | PointJudgement.black => 'X'
  | PointJudgement.white => 'O'
  | PointJudgement.unclear => ','

/-- The `":xo,"` table (relaxed classification). -/
def chmTable : PointJudgement → Char
  | PointJudgement.dame => ':'
  | PointJudgement.black => 'x'
  | PointJudgement.white => 'o'
  | PointJudgement.unclear => ','

/-- uct_printhook_ownermap (uct.c lines 116-128): with no per-game state
nothing is written (`none`); otherwise the point's classification character
at GJ_THRES, retried at the relaxed 0.67 threshold when unclear, is written. -/
def uct_printhook_ownermap (b : Board) (c : Nat) : Option Char :=
  match b.es with
  | Option.none => Option.none
  | Option.some ub =>
    let ch := chrTable (playout_ownermap_judge_point ub.ownermap c GJ_THRES)
    let ch2 := if ch = ',' then chmTable (playout_ownermap_judge_point ub.ownermap c (67 / 100))
      else ch
    Option.some ch2

/-- The driver-side state of the collection loop of uct_threaded_playouts
(uct.c lines 288-306): how many workers were joined, the accumulated game
count, and the `uct_halt` flag. -/
structure DriverState where
  joined : Nat
  played_games : Nat
  uct_halt : Bool
deriving DecidableEq, Repr

/-- One iteration of the collection loop (uct.c lines 289-306): join a
finished worker, accumulate its game count, and after incrementing `joined`
set `uct_halt` as soon as `joined >= u->threads / 2` (C integer division). -/
def joinStep (threads : Nat) (games : Nat) (s : DriverState) : DriverState :=
  let j := s.joined + 1
  { joined := j
    played_games := s.played_games + games
    uct_halt := s.uct_halt || decide (threads / 2 ≤ j) }

/-- The collection loop run over the per-worker game counts in completion
order, starting from the reset state (`uct_halt = 0`, uct.c line 276). -/
def driverJoins (threads : Nat) (gs : List Nat) : DriverState :=
  gs.foldl (fun s g => joinStep threads g s) { joined := 0, played_games := 0, uct_halt := false }

/-- Joined-count bookkeeping of the collection loop: each iteration joins
exactly one worker. -/
theorem driver_joined_fold (threads : Nat) (gs : List Nat) (s : DriverState) :
    (gs.foldl (fun s g => joinStep threads g s) s).joined = s.joined + gs.length := by
  induction gs generalizing s with
  | nil => simp
  | cons g t ih =>
    rw [List.foldl_cons, ih (joinStep threads g s)]
    simp [joinStep]
    omega

/-- Halt bookkeeping of the collection loop: since the `joined >= threads/2`
test is monotone in `joined`, the sticky flag is set after a run of joins iff
at least one join happened and the final joined count reaches `threads/2`. -/
theorem driver_halt_fold (threads : Nat) (gs : List Nat) (s : DriverState) :
    ((gs.foldl (fun s g => joinStep threads g s) s).uct_halt = true) ↔
      (s.uct_halt = true ∨ (1 ≤ gs.length ∧ threads / 2 ≤ s.joined + gs.length)) := by
  induction gs generalizing s with
  | nil => simp
  | cons g t ih =>
    rw [List.foldl_cons, ih (joinStep threads g s)]
    cases hh : s.uct_halt
    · simp only [joinStep, hh, Bool.false_or, Bool.or_eq_true, decide_eq_true_eq,
        List.length_cons, Bool.false_eq_true, false_or]
      omega
    · simp [joinStep, hh, List.length_cons]

/-- Claim C1 (counterexample): with N = 3 workers the code sets `uct_halt`
already after the first join (`1 >= 3/2` holds under C integer division),
although only 1 < ceil(3/2) = 2 workers have been joined — so the flag IS set
before ceil(N/2) workers have been joined. -/
theorem uct_halt_before_majority_cex :
    (driverJoins 3 [120]).uct_halt = true ∧ 1 < (3 + 1) / 2 := by decide

/-- Claim C1 (amended): during the ROOT-model collection loop, `uct_halt` is
set exactly as soon as `joined >= threads / 2` (floor division) holds after a
join — i.e. once `max 1 (threads / 2)` of the workers have been joined — and
never before. -/
theorem uct_halt_iff_half_joined (threads : Nat) (gs : List Nat) :
    ((driverJoins threads gs).uct_halt = true) ↔ max 1 (threads / 2) ≤ gs.length := by
  unfold driverJoins
  rw [driver_halt_fold]
  simp only [Bool.false_eq_true, false_or, Nat.zero_add]
  omega

/-- Claim C5: `uct_pass_is_safe` answers `true` only once the ownership map
has recorded at least GJ_MINGAMES playouts; below that bound it answers
`false` at once, independently of the dead-group computation and of the
rules-level pass-safety oracle (they are not consulted). -/
theorem pass_is_safe_requires_mingames :
    (∀ (u : Uct) (dg : UctBoard → List Nat) (rps : List Nat → Bool) (ub : UctBoard),
        uct_pass_is_safe u dg rps ub = true → GJ_MINGAMES ≤ ub.ownermap.playouts) ∧
    (∀ (u : Uct) (dg dg2 : UctBoard → List Nat) (rps rps2 : List Nat → Bool) (ub : UctBoard),
        ub.ownermap.playouts < GJ_MINGAMES →
        uct_pass_is_safe u dg rps ub = false ∧
          uct_pass_is_safe u dg rps ub = uct_pass_is_safe u dg2 rps2 ub) := by
  constructor
  · intro u dg rps ub h
    by_cases hp : ub.ownermap.playouts < GJ_MINGAMES
    · simp [uct_pass_is_safe, hp] at h
    · omega
  · intro u dg dg2 rps rps2 ub hp
    simp [uct_pass_is_safe, hp]

/-- A sample leaf node used by concrete witnesses. -/
def sampleNode : TNode := TNode.mk (Coord.pt 5) 3 (1 / 2) []

/-- A sample root whose only child plays point 5. -/
def sampleRoot : TNode := TNode.mk (Coord.pt 0) 10 (3 / 5) [sampleNode]

/-- A sample tree: White just played to reach the root, no extra komi. -/
def sampleTree : UTree := { root := sampleRoot, root_color := Stone.white, extra_komi := 0 }

/-- Per-game state over `sampleTree` with `p` recorded ownership playouts. -/
def mkUb (p : Nat) : UctBoard :=
  { t := sampleTree, ownermap := { counts := fun _ => (0, 0, 0), playouts := p } }

/-- Witness for C5 at concrete inputs. -/
theorem pass_is_safe_requires_mingames_witness :
    GJ_MINGAMES ≤ (mkUb 500).ownermap.playouts ∧
      (uct_pass_is_safe uctDefaults (fun _ => []) (fun _ => true) (mkUb 100) = false ∧
        uct_pass_is_safe uctDefaults (fun _ => []) (fun _ => true) (mkUb 100) =
          uct_pass_is_safe uctDefaults (fun _ => [3]) (fun _ => false) (mkUb 100)) :=
  ⟨pass_is_safe_requires_mingames.1 uctDefaults (fun _ => []) (fun _ => true) (mkUb 500)
      (by decide),
   pass_is_safe_requires_mingames.2 uctDefaults (fun _ => []) (fun _ => [3])
      (fun _ => true) (fun _ => false) (mkUb 100) (by decide)⟩

/-- Claim C10: without per-game state the ownership printhook writes nothing,
and `chat("winrate")` answers the fixed no-context string. -/
theorem no_state_printhook_and_chat (u : Uct) (gv : ℚ → ℚ) (b : Board) (c : Nat)
    (h : b.es = Option.none) :
    uct_printhook_ownermap b c = Option.none ∧
      uct_chat u gv b "winrate" = ChatResult.fixedStr "no game context (yet?)" := by
  constructor
  · simp [uct_printhook_ownermap, h]
  · have hc : winrateCmd "winrate" = true := by decide
    simp [uct_chat, h, hc]

/-- A board with no engine state. -/
def emptyBoard : Board :=
  { es := Option.none, moves := 0, last_move := Coord.pass, superko_violation := false }

/-- Witness for C10 at a concrete stateless board. -/
theorem no_state_printhook_and_chat_witness :
    uct_printhook_ownermap emptyBoard 7 = Option.none ∧
      uct_chat uctDefaults (fun q => q) emptyBoard "winrate" =
        ChatResult.fixedStr "no game context (yet?)" :=
  no_state_printhook_and_chat uctDefaults (fun q => q) emptyBoard 7 rfl

/-- Projection: does a chat result's winrate reply include the extra-komi
clause? -/
def reportsExtraKomi : ChatResult → Bool
  | ChatResult.winrateReply _ _ _ _ _ (Option.some _) => true
  | _ => false

/-- A board carrying per-game state over `sampleTree` (extra komi 0). -/
def sampleBoardK0 : Board :=
  { es := Option.some (mkUb 1000), moves := 6, last_move := Coord.pt 2,
    superko_violation := false }

/-- Claim C8 (counterexample): on a board WITH per-game state whose tree has
`extra_komi = 0`, `chat("winrate")` does NOT report the extra komi (the
source appends the komi clause only when `abs(extra_komi) >= 0.5`), refuting
the claim that the reply always reports the current extra komi. -/
theorem chat_winrate_komi_omitted_cex :
    sampleBoardK0.es.isSome = true ∧
      reportsExtraKomi (uct_chat uctDefaults (fun q => q) sampleBoardK0 "winrate") = false := by
  refine ⟨rfl, ?_⟩
  have hc : winrateCmd "winrate" = true := by decide
  have hk : ¬ ((2⁻¹ : ℚ) ≤ (cIntAbs (truncQ (mkUb 1000).t.extra_komi) : ℚ)) := by
    norm_num [mkUb, sampleTree, truncQ, cIntAbs]
  simp [uct_chat, sampleBoardK0, hc, hk, reportsExtraKomi]

/-- The int-truncated magnitude test of uct.c line 174 at the fractional
boundary: komi 0.7 truncates to 0 (clause omitted), komi -1.5 truncates to
-1 with int abs 1 (clause shown). -/
theorem cIntAbs_truncQ_boundary :
    cIntAbs (truncQ (7 / 10 : ℚ)) = 0 ∧ cIntAbs (truncQ (-(3 / 2) : ℚ)) = 1 := by
  have h1 : ((7 : ℚ) / 10).num = 7 := by norm_num
  have h2 : ((7 : ℚ) / 10).den = 10 := by norm_num
  have h3 : (-((3 : ℚ) / 2)).num = -3 := by norm_num
  have h4 : (-((3 : ℚ) / 2)).den = 2 := by norm_num
  constructor
  · unfold truncQ
    rw [h1, h2]
    decide
  · unfold truncQ
    rw [h3, h4]
    decide

/-- Claim C8 (amended): with per-game state, `chat("winrate")` reports the
best root child's win probability (read off the current tree root, the last
promoted best child: its playout count, color, coordinate and value as a win
percentage), and includes the current extra komi exactly when the stdlib int
`abs` of the int-truncated komi reaches 0.5 — that is, when the komi's
magnitude is at least 1. -/
theorem chat_winrate_reply (u : Uct) (gv : ℚ → ℚ) (b : Board) (ub : UctBoard)
    (h : b.es = Option.some ub) :
    uct_chat u gv b "winrate" = ChatResult.winrateReply (TNode.playouts ub.t.root) u.threads
      ub.t.root_color (TNode.coord ub.t.root) (gv (TNode.value ub.t.root) * 100)
      (if 1 / 2 ≤ (cIntAbs (truncQ ub.t.extra_komi) : ℚ) then Option.some ub.t.extra_komi
        else Option.none) := by
  have hc : winrateCmd "winrate" = true := by decide
  simp [uct_chat, h, hc]

/-- Witness for the amended C8 at a concrete board with state. -/
theorem chat_winrate_reply_witness :
    uct_chat uctDefaults (fun q => q) sampleBoardK0 "winrate" =
      ChatResult.winrateReply (TNode.playouts (mkUb 1000).t.root) uctDefaults.threads
        (mkUb 1000).t.root_color (TNode.coord (mkUb 1000).t.root)
        ((fun q => q) (TNode.value (mkUb 1000).t.root) * 100)
        (if 1 / 2 ≤ (cIntAbs (truncQ (mkUb 1000).t.extra_komi) : ℚ) then
          Option.some (mkUb 1000).t.extra_komi else Option.none) :=
  chat_winrate_reply uctDefaults (fun q => q) sampleBoardK0 (mkUb 1000) rfl

/-- Is an engine-call outcome a process termination? -/
def isFatalRes (r : Except EngineErr Board) : Bool :=
  match r with
  | Except.error _ => true
  | Except.ok _ => false

/-- A move by the wrong color (White just played to reach `sampleTree`'s
root, so White moving again is non-alternating) at the promotable point 5. -/
def wrongMove : Move := { coord := Coord.pt 5, color := Stone.white }

/-- Claim C2 (counterexample): a `notify_play` call with per-game state
present and a color that is NOT `other(root_color)` does not terminate the
process — uct_notify_play never calls prepare_move when state exists, so the
non-alternating-play check is skipped and the move is simply promoted. -/
theorem notify_wrong_color_not_fatal_cex :
    sampleBoardK0.es.isSome = true ∧
      wrongMove.color ≠ stone_other sampleTree.root_color ∧
      isFatalRes (uct_notify_play uctDefaults (fun _ => sampleTree) (fun t => t) 0
        sampleBoardK0 wrongMove) = false := by
  decide

/-- Claim C2 (amended): for every `genmove` call made while per-game state
exists (and the board has moves, per the entry assert), a color that is not
`other(root_color)` makes the engine emit the non-alternating-play
diagnostic and terminate; `notify_play` with existing state performs no such
check. -/
theorem genmove_wrong_color_fatal (u : Uct) (ti : Stone → UTree) (tl : UTree → UTree)
    (ek : ℚ) (rp : UctBoard → UctBoard) (choose : UTree → Option TNode) (gv : ℚ → ℚ)
    (ts : UTree → UTree) (oc : OwnerMap → Nat → Nat × Nat × Nat)
    (dg : UctBoard → List Nat) (rps : List Nat → Bool)
    (b : Board) (ub : UctBoard) (color : Stone)
    (hes : b.es = Option.some ub) (hm : b.moves ≠ 0)
    (hc : color ≠ stone_other ub.t.root_color) :
    uct_genmove u ti tl ek rp choose gv ts oc dg rps b color =
      Except.error EngineErr.fatalNonAlternating := by
  simp [uct_genmove, prepare_move, hes, hm, hc]

/-- Witness for the amended C2 at a concrete board and wrong color. -/
theorem genmove_wrong_color_fatal_witness :
    uct_genmove uctDefaults (fun _ => sampleTree) (fun t => t) 0 (fun x => x)
      (fun _ => Option.none) (fun q => q) (fun t => t) (fun om => om.counts)
      (fun _ => []) (fun _ => true) sampleBoardK0 Stone.white =
      Except.error EngineErr.fatalNonAlternating :=
  genmove_wrong_color_fatal uctDefaults (fun _ => sampleTree) (fun t => t) 0 (fun x => x)
    (fun _ => Option.none) (fun q => q) (fun t => t) (fun om => om.counts)
    (fun _ => []) (fun _ => true) sampleBoardK0 (mkUb 1000) Stone.white rfl
    (by decide) (by decide)

/-- Claim C6: `notify_play` with per-game state destroys the state on
RESIGN; otherwise it destroys the state exactly when `tree_promote_at` fails
to find the move among the root's children (warning only, so the next
genmove rebuilds from scratch), and keeps the (promoted) state when
promotion succeeds. -/
theorem notify_play_state_lifecycle (u : Uct) (ti : Stone → UTree) (tl : UTree → UTree)
    (ek : ℚ) (b : Board) (ub : UctBoard) (m : Move) (hes : b.es = Option.some ub) :
    (is_resign m.coord = true →
      uct_notify_play u ti tl ek b m = Except.ok (uct_done_board_state b)) ∧
    (is_resign m.coord = false → tree_promote_at ub.t m.coord = Option.none →
      uct_notify_play u ti tl ek b m = Except.ok (uct_done_board_state b)) ∧
    (∀ t2, is_resign m.coord = false → tree_promote_at ub.t m.coord = Option.some t2 →
      uct_notify_play u ti tl ek b m =
        Except.ok { b with es := Option.some { ub with t := t2 } }) := by
  refine ⟨?_, ?_, ?_⟩ <;> intros <;> simp [uct_notify_play, hes, *]

/-- The tree obtained by promoting point 5 of `sampleTree`. -/
def promotedTree : UTree :=
  { root := sampleNode, root_color := Stone.black, extra_komi := 0 }

/-- Witness for C6: the three lifecycle branches at concrete inputs. -/
theorem notify_play_state_lifecycle_witness :
    (uct_notify_play uctDefaults (fun _ => sampleTree) (fun t => t) 0 sampleBoardK0
        { coord := Coord.resign, color := Stone.black } =
      Except.ok (uct_done_board_state sampleBoardK0)) ∧
    (uct_notify_play uctDefaults (fun _ => sampleTree) (fun t => t) 0 sampleBoardK0
        { coord := Coord.pt 9, color := Stone.black } =
      Except.ok (uct_done_board_state sampleBoardK0)) ∧
    (uct_notify_play uctDefaults (fun _ => sampleTree) (fun t => t) 0 sampleBoardK0
        { coord := Coord.pt 5, color := Stone.black } =
      Except.ok { sampleBoardK0 with es := Option.some { mkUb 1000 with t := promotedTree } }) :=
  ⟨(notify_play_state_lifecycle uctDefaults (fun _ => sampleTree) (fun t => t) 0
      sampleBoardK0 (mkUb 1000) { coord := Coord.resign, color := Stone.black } rfl).1 rfl,
   (notify_play_state_lifecycle uctDefaults (fun _ => sampleTree) (fun t => t) 0
      sampleBoardK0 (mkUb 1000) { coord := Coord.pt 9, color := Stone.black } rfl).2.1 rfl rfl,
   (notify_play_state_lifecycle uctDefaults (fun _ => sampleTree) (fun t => t) 0
      sampleBoardK0 (mkUb 1000) { coord := Coord.pt 5, color := Stone.black } rfl).2.2
      promotedTree rfl rfl⟩

/-- Playout counting of the GJ_MINGAMES top-up loop: each modelled playout
adds exactly one recorded ownership playout. -/
theorem runUntilMingames_playouts_aux (ts : UTree → UTree)
    (oc : OwnerMap → Nat → Nat × Nat × Nat) (n : Nat) (ub : UctBoard) :
    (Nat.iterate
      (fun s => { t := ts s.t
                  ownermap := { counts := oc s.ownermap, playouts := s.ownermap.playouts + 1 } })
      n ub).ownermap.playouts = ub.ownermap.playouts + n := by
  induction n generalizing ub with
  | zero => rfl
  | succ k ih =>
    rw [Function.iterate_succ_apply, ih]
    simp
    omega

/-- The top-up loop leaves the ownership map with exactly
`max playouts GJ_MINGAMES` recorded playouts. -/
theorem runUntilMingames_playouts (ts : UTree → UTree)
    (oc : OwnerMap → Nat → Nat × Nat × Nat) (ub : UctBoard) :
    (runUntilMingames ts oc ub).ownermap.playouts =
      max ub.ownermap.playouts GJ_MINGAMES := by
  unfold runUntilMingames
  rw [runUntilMingames_playouts_aux]
  omega

/-- Claim C4: when the policy's chosen best node has value (as read by
`tree_node_get_value`) below `resign_ratio` and its move is not PASS,
uct_genmove destroys the per-game state and returns RESIGN. -/
theorem genmove_resign_below_ratio (u : Uct) (ti : Stone → UTree) (tl : UTree → UTree)
    (ek : ℚ) (rp : UctBoard → UctBoard) (choose : UTree → Option TNode) (gv : ℚ → ℚ)
    (ts : UTree → UTree) (oc : OwnerMap → Nat → Nat × Nat × Nat)
    (dg : UctBoard → List Nat) (rps : List Nat → Bool)
    (b : Board) (ub : UctBoard) (color : Stone) (best : TNode)
    (hes : b.es = Option.some ub) (hm : b.moves ≠ 0)
    (hc : color = stone_other ub.t.root_color)
    (hrr : u.resign_ratio = 1 / 5)
    (hch : choose ((rp (prepFinishUb u ek b.moves color ub.t)).t) = Option.some best)
    (hv : gv (TNode.value best) < 1 / 5)
    (hp : TNode.coord best ≠ Coord.pass) :
    uct_genmove u ti tl ek rp choose gv ts oc dg rps b color =
      Except.ok ({ b with superko_violation := false, es := Option.none }, Coord.resign) := by
  have hc2 : ¬ color ≠ stone_other ub.t.root_color := by simp [hc]
  simp [uct_genmove, prepare_move, hes, hm, hc2, hch, hrr, hv, hp]
  rwa [one_div] at hv

/-- A Uct record with the post-init resign ratio, as every successful
uct_state_init produces. -/
def uctResign : Uct := { uctDefaults with resign_ratio := 1 / 5 }

/-- The best node chosen in the C4 witness scenario: low value, not a pass. -/
def losingBest : TNode := TNode.mk (Coord.pt 7) 50 (1 / 10) []

/-- Witness for C4 at concrete inputs: the losing best child triggers
RESIGN and the state is destroyed. -/
theorem genmove_resign_below_ratio_witness :
    uct_genmove uctResign (fun _ => sampleTree) (fun t => t) 0 (fun x => x)
      (fun _ => Option.some losingBest) (fun q => q) (fun t => t) (fun om => om.counts)
      (fun _ => []) (fun _ => true) sampleBoardK0 Stone.black =
      Except.ok ({ sampleBoardK0 with superko_violation := false, es := Option.none },
        Coord.resign) :=
  genmove_resign_below_ratio uctResign (fun _ => sampleTree) (fun t => t) 0 (fun x => x)
    (fun _ => Option.some losingBest) (fun q => q) (fun t => t) (fun om => om.counts)
    (fun _ => []) (fun _ => true) sampleBoardK0 (mkUb 1000) Stone.black losingBest rfl
    (by decide) rfl rfl rfl (by norm_num [losingBest, TNode.value]) (by decide)

/-- Claim C3: in a genmove where the board has more than one move and the
last move was PASS, with a chosen best node present and no resignation
triggered, the engine first tops the ownership map up to GJ_MINGAMES
playouts and then, when `uct_pass_is_safe` agrees, returns PASS instead of
the chosen move (promoting the best node with its coordinate overridden). -/
theorem genmove_pass_after_pass (u : Uct) (ti : Stone → UTree) (tl : UTree → UTree)
    (ek : ℚ) (rp : UctBoard → UctBoard) (choose : UTree → Option TNode) (gv : ℚ → ℚ)
    (ts : UTree → UTree) (oc : OwnerMap → Nat → Nat × Nat × Nat)
    (dg : UctBoard → List Nat) (rps : List Nat → Bool)
    (b : Board) (ub : UctBoard) (color : Stone) (best : TNode) (ub1 ub2 : UctBoard)
    (hes : b.es = Option.some ub)
    (hc : color = stone_other ub.t.root_color)
    (hub1 : ub1 = rp (prepFinishUb u ek b.moves color ub.t))
    (hch : choose ub1.t = Option.some best)
    (hnr : ¬ (gv (TNode.value best) < u.resign_ratio ∧ TNode.coord best ≠ Coord.pass))
    (hmoves : 1 < b.moves) (hlast : is_pass b.last_move = true)
    (hub2 : ub2 = runUntilMingames ts oc ub1)
    (hsafe : uct_pass_is_safe u dg rps ub2 = true) :
    (uct_genmove u ti tl ek rp choose gv ts oc dg rps b color =
      Except.ok
        ({ b with
             superko_violation := false,
             es := Option.some
               ⟨tree_promote_node ub2.t (TNode.setCoord best Coord.pass), ub2.ownermap⟩ },
         Coord.pass)) ∧
    GJ_MINGAMES ≤ ub2.ownermap.playouts := by
  subst hub1
  subst hub2
  constructor
  · have hm : b.moves ≠ 0 := by omega
    have hc2 : ¬ color ≠ stone_other ub.t.root_color := by simp [hc]
    simp [uct_genmove, prepare_move, hes, hm, hc2, hch, hnr, hmoves, hlast, hsafe]
  · rw [runUntilMingames_playouts]
    exact le_max_right _ _

/-- A board whose last move was a PASS by the opponent. -/
def passBoard : Board :=
  { es := Option.some (mkUb 1000), moves := 6, last_move := Coord.pass,
    superko_violation := false }

/-- The best node chosen in the C3 witness scenario: clearly winning. -/
def winningBest : TNode := TNode.mk (Coord.pt 7) 50 (9 / 10) []

/-- The state after prepare_move and the (identity) external search in the
C3 witness scenario. -/
def passUb1 : UctBoard :=
  prepFinishUb uctResign 0 passBoard.moves Stone.black (mkUb 1000).t

/-- The state after the GJ_MINGAMES top-up loop in the C3 witness scenario. -/
def passUb2 : UctBoard := runUntilMingames (fun t => t) (fun om => om.counts) passUb1

set_option maxRecDepth 4000 in
/-- Witness for C3 at concrete inputs: opponent passed, the position is
safe, so genmove answers PASS and the map holds at least GJ_MINGAMES
playouts. -/
theorem genmove_pass_after_pass_witness :
    (uct_genmove uctResign (fun _ => sampleTree) (fun t => t) 0 (fun x => x)
        (fun _ => Option.some winningBest) (fun q => q) (fun t => t) (fun om => om.counts)
        (fun _ => []) (fun _ => true) passBoard Stone.black =
      Except.ok
        ({ passBoard with
             superko_violation := false,
             es := Option.some
               ⟨tree_promote_node passUb2.t (TNode.setCoord winningBest Coord.pass),
                passUb2.ownermap⟩ },
         Coord.pass)) ∧
    GJ_MINGAMES ≤ passUb2.ownermap.playouts :=
  genmove_pass_after_pass uctResign (fun _ => sampleTree) (fun t => t) 0 (fun x => x)
    (fun _ => Option.some winningBest) (fun q => q) (fun t => t) (fun om => om.counts)
    (fun _ => []) (fun _ => true) passBoard (mkUb 1000) Stone.black winningBest
    passUb1 passUb2 rfl rfl rfl rfl
    (fun h => absurd h.1 (by norm_num [winningBest, TNode.value, uctResign, uctDefaults]))
    (by decide) rfl rfl (by decide)

/-- Splitting strictly consumes input: the remainder after the separator is
shorter than the original list. -/
theorem splitOnCh_some_lt (sep : Char) :
    ∀ (cs r : List Char), (splitOnCh sep cs).2 = Option.some r → r.length < cs.length := by
  intro cs
  induction cs with
  | nil => intro r h; simp [splitOnCh] at h
  | cons c cs ih =>
    intro r h
    by_cases hc : c = sep
    · simp [splitOnCh, hc] at h
      subst h
      simp
    · simp only [splitOnCh, if_neg hc] at h
      exact Nat.lt_succ_of_lt (ih r h)

/-- The fuelled option loop does not depend on the fuel, provided the fuel
covers the input length. -/
theorem parseCharsAux_fuel_irrel :
    ∀ (f1 : Nat) (f2 : Nat) (u : Uct) (cs : List Char),
      cs.length ≤ f1 → cs.length ≤ f2 → parseCharsAux f1 u cs = parseCharsAux f2 u cs := by
  intro f1
  induction f1 with
  | zero =>
    intro f2 u cs h1 _
    have : cs = [] := List.length_eq_zero.mp (Nat.le_zero.mp h1)
    subst this
    cases f2 <;> rfl
  | succ f ih =>
    intro f2 u cs h1 h2
    cases cs with
    | nil => cases f2 <;> rfl
    | cons c cs2 =>
      cases f2 with
      | zero => simp at h2
      | succ f2b =>
        simp only [parseCharsAux]
        cases hst : stepOption u (splitOnCh ',' (c :: cs2)).1 with
        | fatal m => rfl
        | stopBanner bv => rfl
        | cont u2 =>
          cases hr : (splitOnCh ',' (c :: cs2)).2 with
          | none => rfl
          | some rest =>
            have hlt := splitOnCh_some_lt ',' (c :: cs2) rest hr
            exact ih f2b u2 rest (by simp at h1 hlt ⊢; omega) (by simp at h2 hlt ⊢; omega)

/-- Unfolding one successful (cont) step of the option loop. -/
theorem parseChars_step (u u2 : Uct) (cs rest : List Char)
    (hst : stepOption u (splitOnCh ',' cs).1 = StepResult.cont u2)
    (hr : (splitOnCh ',' cs).2 = Option.some rest) :
    parseChars u cs = parseChars u2 rest := by
  cases cs with
  | nil => simp [splitOnCh] at hr
  | cons c cs2 =>
    have hlt := splitOnCh_some_lt ',' (c :: cs2) rest hr
    unfold parseChars
    simp only [List.length_cons, parseCharsAux, hst, hr]
    exact parseCharsAux_fuel_irrel cs2.length rest.length u2 rest
      (by simp at hlt; omega) (Nat.le_refl _)

/-- The option loop, seen as a reachability relation: `Reaches u cs v cs2`
holds when the loop started at state `u` on input `cs` later reaches state
`v` with input `cs2` left, through zero or more successful (cont) steps. -/
inductive Reaches : Uct → List Char → Uct → List Char → Prop where
  | refl (u : Uct) (cs : List Char) : Reaches u cs u cs
  | step (u u2 v : Uct) (cs rest cs2 : List Char) :
      stepOption u (splitOnCh ',' cs).1 = StepResult.cont u2 →
      (splitOnCh ',' cs).2 = Option.some rest →
      Reaches u2 rest v cs2 → Reaches u cs v cs2

/-- The loop's result is invariant along reachability. -/
theorem reaches_parseChars {u : Uct} {cs : List Char} {v : Uct} {cs2 : List Char}
    (h : Reaches u cs v cs2) : parseChars u cs = parseChars v cs2 := by
  induction h with
  | refl => rfl
  | step u u2 v cs rest cs2 hst hr _ ih =>
    rw [parseChars_step u u2 cs rest hst hr]
    exact ih

/-- An invalid `policy=` / `random_policy=` value: neither `ucb1` nor
`ucb1amaf` before the optional `:args`. -/
def policyValBad (v : List Char) : Bool :=
  !(ceq (String.mk (splitOnCh ':' v).1) "ucb1" ||
    ceq (String.mk (splitOnCh ':' v).1) "ucb1amaf")

/-- An invalid `playout=` value: neither `moggy` nor `light`. -/
def playoutValBad (v : List Char) : Bool :=
  !(ceq (String.mk (splitOnCh ':' v).1) "moggy" ||
    ceq (String.mk (splitOnCh ':' v).1) "light")

/-- An invalid `thread_model=` value: neither `none` nor `root`. -/
def tmValBad (v : List Char) : Bool :=
  !(ceq (String.mk v) "none" || ceq (String.mk v) "root")

/-- An option token on which uct_state_init terminates the process: an
unrecognized key, a value-requiring key given without `=value`, or an
invalid policy / playout / thread_model value. -/
def offendingOpt (tok : List Char) : Bool :=
  match classifyKey (String.mk (splitOnCh '=' tok).1), (splitOnCh '=' tok).2 with
  | KeyClass.unknown, _ => true
  | k, Option.none => requiresVal k
  | KeyClass.policy, Option.some v => policyValBad v
  | KeyClass.random_policy, Option.some v => policyValBad v
  | KeyClass.playout, Option.some v => playoutValBad v
  | KeyClass.thread_model, Option.some v => tmValBad v
  | _, Option.some _ => false

/-- Processing an offending option always yields a fatal diagnostic,
whatever the accumulated configuration state. -/
theorem offending_step_fatal (u : Uct) (tok : List Char) (h : offendingOpt tok = true) :
    ∃ m, stepOption u tok = StepResult.fatal m := by
  unfold offendingOpt at h
  unfold stepOption
  cases hk : classifyKey (String.mk (splitOnCh '=' tok).1) <;>
    cases hv : (splitOnCh '=' tok).2 <;>
    rw [hk, hv] at h <;>
    first
    | exact ⟨_, rfl⟩
    | exact Bool.noConfusion h
    | skip
  case policy.some v =>
    simp only [policyValBad, Bool.not_eq_true', Bool.or_eq_false_iff] at h
    simp [h.1, h.2]
  case random_policy.some v =>
    simp only [policyValBad, Bool.not_eq_true', Bool.or_eq_false_iff] at h
    simp [h.1, h.2]
  case playout.some v =>
    simp only [playoutValBad, Bool.not_eq_true', Bool.or_eq_false_iff] at h
    simp [h.1, h.2]
  case thread_model.some v =>
    simp only [tmValBad, Bool.not_eq_true', Bool.or_eq_false_iff] at h
    simp [h.1, h.2]

/-- A parse error of the option loop propagates to uct_state_init. -/
theorem state_init_of_parse_error (arg : String) (m : String)
    (h : parseChars uctDefaults arg.data = Except.error m) :
    uct_state_init (Option.some arg) = Except.error m := by
  show uct_state_init_parsed (parseChars uctDefaults arg.data) = Except.error m
  rw [h]
  rfl

/-- Claim C7: whenever the option scan of uct_state_init reaches an
unrecognized key, a value-requiring key without a value, or an invalid
policy / playout / thread_model value, the process terminates with a
diagnostic. -/
theorem state_init_fatal_on_bad_option (arg : String) (u : Uct) (cs : List Char)
    (hne : cs ≠ [])
    (hr : Reaches uctDefaults arg.data u cs)
    (hoff : offendingOpt (splitOnCh ',' cs).1 = true) :
    ∃ m, uct_state_init (Option.some arg) = Except.error m := by
  obtain ⟨m, hm⟩ := offending_step_fatal u (splitOnCh ',' cs).1 hoff
  have hpc : parseChars u cs = Except.error m := by
    cases cs with
    | nil => exact absurd rfl hne
    | cons c cs2 =>
      unfold parseChars
      simp only [List.length_cons, parseCharsAux, hm]
  exact ⟨m, state_init_of_parse_error arg m ((reaches_parseChars hr).trans hpc)⟩

/-- Witness for C7: a configuration with an unknown key is fatal. -/
theorem state_init_fatal_on_bad_option_witness :
    ∃ m, uct_state_init (Option.some "bogus_key=3") = Except.error m :=
  state_init_fatal_on_bad_option "bogus_key=3" uctDefaults ("bogus_key=3".data)
    (by decide) (Reaches.refl uctDefaults ("bogus_key=3".data)) (by decide)

/-- Claim C9: when the parsed configuration sets exactly one of
`random_policy` and `random_policy_chance`, uct_state_init terminates with
the dedicated diagnostic (the post-parse adjustments never touch these two
fields). -/
theorem state_init_random_policy_xor_fatal (arg : String) (u : Uct)
    (hp : parseChars uctDefaults arg.data = Except.ok u)
    (hx : (u.random_policy_chance ≠ 0 ∧ u.random_policy = Option.none) ∨
          (u.random_policy_chance = 0 ∧ u.random_policy ≠ Option.none)) :
    uct_state_init (Option.some arg) =
      Except.error "uct: Only one of random_policy and random_policy_chance is set" := by
  show uct_state_init_parsed (parseChars uctDefaults arg.data) =
    Except.error "uct: Only one of random_policy and random_policy_chance is set"
  rw [hp]
  unfold uct_state_init_parsed
  rcases hx with ⟨h1, h2⟩ | ⟨h1, h2⟩ <;>
    by_cases hpol : u.policy = Option.none <;>
    by_cases hth : u.threads = 0 <;>
    simp [hpol, hth, h1, h2]

/-- The configuration parsed from the C9 witness string. -/
def uRPC2 : Uct := { uctDefaults with random_policy_chance := 2 }

/-- Witness for C9: `random_policy_chance=2` alone is fatal. -/
theorem state_init_random_policy_xor_fatal_witness :
    uct_state_init (Option.some "random_policy_chance=2") =
      Except.error "uct: Only one of random_policy and random_policy_chance is set" :=
  state_init_random_policy_xor_fatal "random_policy_chance=2" uRPC2 (by rfl)
    (Or.inl ⟨by decide, rfl⟩)
